import Mathlib

/-!
Verification of the session / notification-fanout layer declared in
`cppForSwig/BDM_Server.h` (BitcoinArmory).

The shallow embedding below translates the inline bodies of the header
(`LongPoll::isValid`, `LongPoll::shutdown`, `LongPoll::resetCounter`,
`LongPoll::callback`, `WS_Callback`, `BDV_Server_Object::resetCounter`)
into pure Lean functions over explicit state, and models the operations
whose bodies are not part of the provided source (`LongPoll::respond`,
`Clients::registerBDV`, `Clients::shutdown`, `BDV_Server_Object`
registration buffering / `populateWallets`, the notification fan-out
loops) from the specification, each such definition marked
`Modelled from the spec:` in its doc comment.

Machine integers: `count_` is a C++ `atomic<unsigned>`; its wrap-around
is modelled with an explicit `% 2 ^ 32`.
-/

/-- `#define CALLBACK_EXPIRE_COUNT 5` (BDM_Server.h line 30). -/
def CALLBACK_EXPIRE_COUNT : Nat := 5

/-- Modulus of the C++ `unsigned` expiry counter. -/
def UNSIGNED_MOD : Nat := 2 ^ 32

namespace LongPoll

/-- State of a `LongPoll` channel: the atomic expiry counter `count_`,
the pending-notification queue `notificationStack_` (a `TimedStack`,
modelled as a FIFO list plus a terminated flag; notifications are
identified by `Nat` payloads). The mutex `mu_` is not part of the
per-channel data state: it appears as the `lockFree`/`mutexHeld`
parameters of the operations and of the interleaving system below. -/
structure State where
  count : Nat
  queue : List Nat
  terminated : Bool
deriving DecidableEq, Repr

/-- A freshly constructed `LongPoll` (constructor stores 0 into `count_`). -/
def init : State := { count := 0, queue := [], terminated := false }

/-- `LongPoll::isValid` (BDM_Server.h lines 92-104).  `lockFree` is the
outcome of `lock.try_lock()` on `mu_`: it is `false` exactly when a
`respond` (which holds `mu_`) is in progress.  On a successful try_lock
the counter is incremented (`fetch_add(1) + 1`, unsigned wrap-around)
and the call returns `false` iff the incremented value reached
`CALLBACK_EXPIRE_COUNT`; on a failed try_lock it returns `true` and
touches nothing. -/
def isValid (lockFree : Bool) (s : State) : Bool × State :=
  match lockFree with
  | true =>
      let count := (s.count + 1) % UNSIGNED_MOD
      (decide (count < CALLBACK_EXPIRE_COUNT), { s with count := count })
  | false => (true, s)

/-- `LongPoll::resetCounter` (BDM_Server.h lines 87-90): stores 0. -/
def resetCounter (s : State) : State :=
  { s with count := 0 }

/-- `LongPoll::callback` (BDM_Server.h lines 106-109): push_back onto
`notificationStack_`. -/
def callback (n : Nat) (s : State) : State :=
  { s with queue := s.queue ++ [n] }

/-- `LongPoll::shutdown` (BDM_Server.h lines 79-85): terminate the
notification stack, then grab `mu_` (released on return).  Its effect on
the data state is marking the queue terminated; `TimedStack::terminate`
(body outside the provided source) is modelled from the spec as setting
the terminated flag.  The grab-the-mutex phase is modelled in the
interleaving system `Sys` below. -/
def shutdown (s : State) : State :=
  { s with terminated := true }

/-- Result of a poll response: either an ordered batch of drained
notifications or the terminal (shutdown) result. -/
inductive RespondResult where
  | batch (ns : List Nat)
  | terminal
deriving DecidableEq, Repr

/-- Modelled from the spec: the body of `LongPoll::respond` /
`respond_inner` (declared at BDM_Server.h lines 61-72, defined outside
the provided source).  Per spec section 4.1, a woken responder: on
termination returns the empty/terminal result; on waking with data
atomically drains every queued notification into a single ordered batch
and resets the expiry counter to 0; on a bare timeout wake returns an
empty batch and changes nothing. -/
def respond (s : State) : RespondResult × State :=
  if s.terminated then (RespondResult.terminal, s)
  else if s.queue = [] then (RespondResult.batch [], s)
  else (RespondResult.batch s.queue, { s with queue := [], count := 0 })

/-- The operations a client of one `LongPoll` channel can perform, used
to quantify over arbitrary later call sequences. -/
inductive Op where
  | opIsValid (lockFree : Bool)
  | opResetCounter
  | opCallback (n : Nat)
  | opRespond
  | opShutdown
deriving DecidableEq, Repr

/-- State effect of one operation (results discarded). -/
def applyOp (op : Op) (s : State) : State :=
  match op with
  | Op.opIsValid lockFree => (isValid lockFree s).2
  | Op.opResetCounter => resetCounter s
  | Op.opCallback n => callback n s
  | Op.opRespond => (respond s).2
  | Op.opShutdown => shutdown s

/-- Run a sequence of operations left to right. -/
def runOps (ops : List Op) (s : State) : State :=
  ops.foldl (fun t op => applyOp op t) s

/-- The channel state after four unobstructed liveness checks from a
fresh channel (counter 4, one check away from the expiry threshold). -/
def nearExpiredState : State :=
  runOps (List.replicate 4 (Op.opIsValid true)) init

/-- The channel state once the counter has reached the expiry
threshold: the fifth unobstructed liveness check (which returns
`false`). -/
def expiredState : State :=
  (isValid true nearExpiredState).2

end LongPoll

namespace WS_Callback

/-- `WS_Callback` (BDM_Server.h lines 113-126) carries only the const
session id `bdvID_`. -/
structure State where
  bdvID : Nat
deriving DecidableEq, Repr

/-- `WS_Callback::isValid` (line 124): `{ return true; }`. -/
def isValid (_s : State) : Bool := true

/-- `WS_Callback::shutdown` (line 125): `{}` — a no-op. -/
def shutdown (s : State) : State := s

end WS_Callback

/-- The concrete `Callback` variants owned by a `BDV_Server_Object`
through `unique_ptr<Callback> cb_` (BDM_Server.h line 135). -/
inductive Channel where
  | longPoll (s : LongPoll.State)
  | wsCallback (s : WS_Callback.State)
deriving DecidableEq, Repr

namespace Channel

/-- Virtual dispatch of `Callback::shutdown` to the variant bodies
(`LongPoll::shutdown` lines 79-85, `WS_Callback::shutdown` line 125). -/
def shutdown : Channel → Channel
  | Channel.longPoll s => Channel.longPoll (LongPoll.shutdown s)
  | Channel.wsCallback s => Channel.wsCallback (WS_Callback.shutdown s)

/-- Whether the channel reports terminated: a `LongPoll` once its
notification stack is terminated; a push channel has no queue to
terminate, so nothing remains to deliver through it. -/
def terminated : Channel → Bool
  | Channel.longPoll s => s.terminated
  | Channel.wsCallback _ => true

end Channel

namespace BDV_Server_Object

/-- `BDV_Server_Object::resetCounter` (BDM_Server.h lines 167-172):
`dynamic_cast<LongPoll*>(cb_.get())`; when the downcast succeeds, call
`LongPoll::resetCounter`; when it yields null (the channel is not a
`LongPoll`), do nothing. -/
def resetCounter : Channel → Channel
  | Channel.longPoll s => Channel.longPoll (LongPoll.resetCounter s)
  | Channel.wsCallback s => Channel.wsCallback s

end BDV_Server_Object

/-!
Interleaving system for `LongPoll::shutdown` versus an in-flight
`respond`.  One responder thread and one shutdown thread race on a
single channel.  `mutexHeld` models `mu_` being held by the responder
(a `respond` in flight); `sdTerminated` records that the shutdown
thread has executed `notificationStack_.terminate()` (line 83);
`sdDone` records that it has also acquired and released `mu_`
(line 84) and returned.  Per spec section 4.1 `respond` holds the same
mutex `mu_` as `isValid` for the duration of the response (its body is
outside the provided source; the responder steps are modelled from the
spec), fails fast once the stack is terminated, and only reads session
state in the deliver step. -/

namespace Sys

structure State where
  lp : LongPoll.State
  mutexHeld : Bool
  sdTerminated : Bool
  sdDone : Bool
deriving DecidableEq, Repr

/-- Initial system state: fresh channel, no responder in flight,
shutdown not started. -/
def init : State :=
  { lp := LongPoll.init, mutexHeld := false, sdTerminated := false,
    sdDone := false }

inductive Label where
  | respAcquire
  | respDeliver
  | respFailFast
  | respTimeout
  | cbPush (n : Nat)
  | sdTerminate
  | sdAcquireReturn
deriving DecidableEq, Repr

/-- One interleaved step of the two threads (plus notification pushes).
`respDeliver` is the step of a completed poll response: it drains the
queue, resets the counter and reads session state, and is only enabled
while the stack is not terminated; a responder waking on a terminated
stack takes `respFailFast` instead. -/
inductive Step : Label → State → State → Prop
  | respAcquire (s : State) :
      s.mutexHeld = false →
      Step Label.respAcquire s { s with mutexHeld := true }
  | respDeliver (s : State) :
      s.mutexHeld = true → s.lp.terminated = false → s.lp.queue ≠ [] →
      Step Label.respDeliver s
        { s with lp := { s.lp with queue := [], count := 0 },
                 mutexHeld := false }
  | respFailFast (s : State) :
      s.mutexHeld = true → s.lp.terminated = true →
      Step Label.respFailFast s { s with mutexHeld := false }
  | respTimeout (s : State) :
      s.mutexHeld = true →
      Step Label.respTimeout s { s with mutexHeld := false }
  | cbPush (s : State) (n : Nat) :
      s.lp.terminated = false →
      Step (Label.cbPush n) s { s with lp := LongPoll.callback n s.lp }
  | sdTerminate (s : State) :
      s.sdTerminated = false →
      Step Label.sdTerminate s
        { s with lp := { s.lp with terminated := true },
                 sdTerminated := true }
  | sdAcquireReturn (s : State) :
      s.sdTerminated = true → s.mutexHeld = false → s.sdDone = false →
      Step Label.sdAcquireReturn s { s with sdDone := true }

/-- Reachability from the initial system state. -/
def Reachable (s : State) : Prop :=
  Relation.ReflTransGen (fun a b => ∃ l, Step l a b) init s

/-- The system state after the shutdown thread has terminated the
stack but not yet grabbed the mutex (used as a concrete witness). -/
def afterTerminate : State :=
  { lp := { count := 0, queue := [], terminated := true },
    mutexHeld := false, sdTerminated := true, sdDone := false }

/-- The system state after shutdown has also grabbed and released the
mutex and returned. -/
def afterReturn : State :=
  { afterTerminate with sdDone := true }

end Sys

/-- First-key-wins association-list lookup (the access discipline of
`std::map` / `TransactionalMap` keyed by id strings). -/
def alookup {α : Type} : List (String × α) → String → Option α
  | [], _ => none
  | (k, v) :: rest, i => if k = i then some v else alookup rest i

/-- `std::map` bracket-assignment: replace the binding of the key when
present, append a fresh binding otherwise (last write wins per key). -/
def insertLWW {α : Type} : List (String × α) → String → α → List (String × α)
  | [], k, v => [(k, v)]
  | (k1, v1) :: rest, k, v =>
      if k1 = k then (k, v) :: rest else (k1, v1) :: insertLWW rest k v

/-- The most recent value written for key `i` in a journal of writes
(first match in the reversed journal). -/
def lastWrite {α : Type} (writes : List (String × α)) (i : String) : Option α :=
  alookup writes.reverse i

/-- Remove every binding of a key (`std::map::erase` /
`TransactionalMap` removal). -/
def removeKey {α : Type} : List (String × α) → String → List (String × α)
  | [], _ => []
  | (k1, v1) :: rest, k =>
      if k1 = k then removeKey rest k else (k1, v1) :: removeKey rest k

/-- Fold a journal of keyed writes into a map, last write winning per
key (the cumulative effect of repeated `std::map` assignments). -/
def buildMap {α : Type} (writes : List (String × α))
    (m : List (String × α)) : List (String × α) :=
  writes.foldl (fun w p => insertLWW w p.1 p.2) m

namespace BDV_Server_Object

/-- `enum WalletType` (BDM_Server.h lines 32-36). -/
inductive WalletType where
  | typeWallet
  | typeLockbox
deriving DecidableEq, Repr

/-- `BDV_Server_Object::walletRegStruct` (BDM_Server.h lines 142-146);
the opaque registration command is identified by a `Nat`. -/
structure WalletRegStruct where
  command_ : Nat
  type_ : WalletType
deriving DecidableEq, Repr

/-- Session registration state: the pre-activation buffer `wltRegMap_`
(BDM_Server.h line 149, guarded by `registerWalletMutex_`) and the
resolved watch-set built by `populateWallets` (line 165). -/
structure SessionState where
  activated : Bool
  wltRegMap : List (String × WalletRegStruct)
  wallets : List (String × WalletRegStruct)
deriving DecidableEq, Repr

/-- A session as constructed by `registerBDV`, before activation. -/
def freshSession : SessionState :=
  { activated := false, wltRegMap := [], wallets := [] }

/-- Modelled from the spec: the bodies of
`BDV_Server_Object::registerWallet` / `registerLockbox` are outside the
provided source.  Per spec section 4.2, before activation a
registration is buffered in `wltRegMap_` keyed by entity id,
last-write-wins on a duplicate id; after activation it is applied
immediately to the resolved watch-set. -/
def registerWatch (id : String) (reg : WalletRegStruct)
    (s : SessionState) : SessionState :=
  match s.activated with
  | false => { s with wltRegMap := insertLWW s.wltRegMap id reg }
  | true => { s with wallets := insertLWW s.wallets id reg }

/-- Modelled from the spec: the body of
`BDV_Server_Object::populateWallets` (declared BDM_Server.h line 165)
is outside the provided source.  Per spec section 4.2, `activate()`
takes the registration lock once, drains the buffer, resolves every
buffered entry into the live watch-set, and fulfills the readiness
gate. -/
def activate (s : SessionState) : SessionState :=
  { activated := true,
    wltRegMap := [],
    wallets := buildMap s.wltRegMap s.wallets }

/-- Buffer a whole journal of pre-activation registrations in order. -/
def applyRegs (regs : List (String × WalletRegStruct))
    (s : SessionState) : SessionState :=
  regs.foldl (fun t p => registerWatch p.1 p.2 t) s

end BDV_Server_Object

namespace Clients

/-- Result of `Clients::registerBDV` as seen by the caller. -/
inductive RegisterResult where
  | ok
  | duplicateSession
deriving DecidableEq, Repr

/-- Modelled from the spec: the body of `Clients::registerBDV`
(declared BDM_Server.h lines 262-263) is outside the provided source.
Per spec section 4.3, registration fails with `DuplicateSession` when
the id already exists in `BDVs_` (modelled as an association list of
session handles) and otherwise inserts a new session under that id. -/
def registerBDV (bdvs : List (String × Nat)) (id : String) (sess : Nat) :
    RegisterResult × List (String × Nat) :=
  if (alookup bdvs id).isSome then (RegisterResult.duplicateSession, bdvs)
  else (RegisterResult.ok, bdvs ++ [(id, sess)])

/-- Registry-level state of `Clients`: the run flag `run_`, the
blocking queues (`gcCommands_`, `outerBDVNotifStack_`,
`innerBDVNotifStack_`) collapsed into one terminated flag, the control
threads collapsed into one joined flag, the live session map `BDVs_`
with each session's delivery channel, a journal of torn-down sessions,
and the number of calls made to `shutdownCallback_`. -/
structure State where
  run : Bool
  queuesTerminated : Bool
  threadsJoined : Bool
  sessions : List (String × Channel)
  unregistered : List (String × Channel)
  hookCalls : Nat
deriving DecidableEq, Repr

/-- Modelled from the spec: the body of `Clients::shutdown` (declared
BDM_Server.h line 265) is outside the provided source.  Per spec
section 4.3, `shutdownAll` clears the run flag, terminates all blocking
queues, joins all background threads, unregisters every remaining
session (shutting down its channel per section 4.2 teardown), and
finally invokes the external shutdown hook once. -/
def shutdownAll (c : State) : State :=
  let c1 := { c with run := false }
  let c2 := { c1 with queuesTerminated := true }
  let c3 := { c2 with threadsJoined := true }
  let c4 := { c3 with
    sessions := [],
    unregistered :=
      c3.unregistered
        ++ c3.sessions.map
            (fun (p : String × Channel) => (p.1, Channel.shutdown p.2)) }
  { c4 with hookCalls := c4.hookCalls + 1 }

/-- A concrete registry state with one live long-poll session and the
hook not yet invoked (used as a concrete witness below). -/
def sampleState : State :=
  { run := true, queuesTerminated := false, threadsJoined := false,
    sessions := [("a", Channel.longPoll LongPoll.init)],
    unregistered := [], hookCalls := 0 }

end Clients

namespace Fanout

/-- A notification as routed by the fan-out pipeline: the watched
entity it concerns and an opaque payload. -/
structure Notif where
  entity : String
  payload : Nat
deriving DecidableEq, Repr

/-- The registry-facing events, in the order the registry accepts
them: session registration/unregistration, watch registration, and
`dispatch` of a notification onto `outerBDVNotifStack_`. -/
inductive Event where
  | registerSession (sid : String)
  | unregisterSession (sid : String)
  | registerWatch (sid : String) (entity : String)
  | dispatch (n : Notif)
deriving DecidableEq, Repr

/-- Per-session view: its watch-set and the notifications delivered to
it so far, in delivery order. -/
structure Sess where
  watches : List String
  delivered : List Notif
deriving DecidableEq, Repr

/-- A freshly registered session: empty watch-set, nothing delivered. -/
def freshSess : Sess := { watches := [], delivered := [] }

/-- Add entity `e` to the watch-set of session `sid2` (identity on
other sessions). -/
def addWatch (sid2 e : String) (k : String) (s : Sess) : Sess :=
  if k = sid2 then { s with watches := s.watches ++ [e] } else s

/-- Deliver `n` to a session iff its watch-set matches `n.entity`
(irrelevant notifications are dropped silently). -/
def deliverTo (n : Notif) (s : Sess) : Sess :=
  if n.entity ∈ s.watches then { s with delivered := s.delivered ++ [n] }
  else s

/-- Modelled from the spec: the bodies of `Clients::bdvMaintenanceLoop`
and the fan-out/delivery threads (declared BDM_Server.h lines 233-237)
are outside the provided source.  Per spec sections 4.3 and 5, the
single consumer pops events in FIFO acceptance order and processes each
one fully against the current registry before the next: registration
inserts a fresh session (duplicate ids rejected per `registerBDV`),
unregistration removes it, and a dispatched notification is delivered
to every currently registered session whose watch-set matches it. -/
def stepEvent (g : List (String × Sess)) : Event → List (String × Sess)
  | Event.registerSession sid =>
      if (alookup g sid).isSome then g else g ++ [(sid, freshSess)]
  | Event.unregisterSession sid => removeKey g sid
  | Event.registerWatch sid e =>
      g.map (fun (p : String × Sess) => (p.1, addWatch sid e p.1 p.2))
  | Event.dispatch n =>
      g.map (fun (p : String × Sess) => (p.1, deliverTo n p.2))

/-- Run the registry over a whole event journal. -/
def runEvents (evs : List Event) (g : List (String × Sess)) :
    List (String × Sess) :=
  evs.foldl stepEvent g

/-- The projection of one registry event onto a single session `sid`
(`none` = not registered). -/
def stepSession (sid : String) (st : Option Sess) : Event → Option Sess
  | Event.registerSession sid2 =>
      if sid2 = sid then some (st.getD freshSess) else st
  | Event.unregisterSession sid2 => if sid2 = sid then none else st
  | Event.registerWatch sid2 e => st.map (addWatch sid2 e sid)
  | Event.dispatch n => st.map (deliverTo n)

/-- Single-session semantics: fold the projection over the journal. -/
def viewFrom (evs : List Event) (st : Option Sess) (sid : String) :
    Option Sess :=
  evs.foldl (stepSession sid) st

/-- The view of session `sid` after a journal run from an empty
registry. -/
def sessionView (evs : List Event) (sid : String) : Option Sess :=
  viewFrom evs none sid

/-- The notifications accepted by `dispatch`, in acceptance order. -/
def dispatched (evs : List Event) : List Notif :=
  evs.filterMap (fun e =>
    match e with
    | Event.dispatch n => some n
    | _ => none)

/-- The delivered list of a possibly-absent session. -/
def deliveredOf : Option Sess → List Notif
  | some s => s.delivered
  | none => []

/-- A concrete journal: session A registers, watches entity x, and one
matching notification is dispatched (used as a concrete witness
below). -/
def sampleEvents : List Event :=
  [Event.registerSession "A", Event.registerWatch "A" "x",
   Event.dispatch (Notif.mk "x" 1)]

end Fanout

/-!  Helper lemmas about association lists. -/

theorem alookup_append {α : Type} (l1 l2 : List (String × α)) (i : String) :
    alookup (l1 ++ l2) i =
      match alookup l1 i with
      | some v => some v
      | none => alookup l2 i := by
  induction l1 with
  | nil => simp [alookup]
  | cons p rest ih =>
      obtain ⟨k, v⟩ := p
      by_cases h : k = i <;> simp [alookup, h, ih]

theorem alookup_eq_none_of_not_mem {α : Type} (l : List (String × α))
    (i : String) (h : i ∉ l.map Prod.fst) : alookup l i = none := by
  induction l with
  | nil => rfl
  | cons p rest ih =>
      obtain ⟨k, v⟩ := p
      simp only [List.map_cons, List.mem_cons] at h
      push_neg at h
      have hk : ¬ k = i := fun hk => h.1 hk.symm
      simp [alookup, hk, ih h.2]

theorem mem_keys_of_alookup_isSome {α : Type} (l : List (String × α))
    (i : String) (h : (alookup l i).isSome = true) : i ∈ l.map Prod.fst := by
  induction l with
  | nil => simp [alookup] at h
  | cons p rest ih =>
      obtain ⟨k, v⟩ := p
      by_cases hk : k = i
      · simp [hk]
      · simp only [alookup, if_neg hk] at h
        simp [ih h]

theorem alookup_isSome_of_mem_keys {α : Type} (l : List (String × α))
    (i : String) (h : i ∈ l.map Prod.fst) : (alookup l i).isSome = true := by
  induction l with
  | nil => simp at h
  | cons p rest ih =>
      obtain ⟨k, v⟩ := p
      by_cases hk : k = i
      · simp [alookup, hk]
      · simp only [List.map_cons, List.mem_cons] at h
        rcases h with h | h
        · exact absurd h.symm hk
        · simp [alookup, hk, ih h]

theorem alookup_insertLWW {α : Type} (m : List (String × α)) (k i : String)
    (v : α) :
    alookup (insertLWW m k v) i = if k = i then some v else alookup m i := by
  induction m with
  | nil => simp [insertLWW, alookup]
  | cons p rest ih =>
      obtain ⟨k1, v1⟩ := p
      by_cases h1 : k1 = k
      · subst h1
        by_cases h2 : k1 = i <;> simp [insertLWW, alookup, h2]
      · by_cases h2 : k1 = i
        · subst h2
          have : ¬ k = k1 := fun hk => h1 hk.symm
          simp [insertLWW, h1, alookup, this]
        · simp [insertLWW, h1, alookup, h2, ih]

theorem mem_keys_insertLWW {α : Type} (m : List (String × α)) (k i : String)
    (v : α) (h : i ∈ (insertLWW m k v).map Prod.fst) :
    i = k ∨ i ∈ m.map Prod.fst := by
  induction m with
  | nil => simpa [insertLWW] using h
  | cons p rest ih =>
      obtain ⟨k1, v1⟩ := p
      by_cases h1 : k1 = k
      · subst h1
        simpa [insertLWW] using h
      · simp only [insertLWW, if_neg h1, List.map_cons, List.mem_cons] at h
        rcases h with h | h
        · exact Or.inr (by simp [h])
        · rcases ih h with h2 | h2
          · exact Or.inl h2
          · exact Or.inr (by simp [h2])

theorem nodup_keys_insertLWW {α : Type} (m : List (String × α)) (k : String)
    (v : α) (h : (m.map Prod.fst).Nodup) :
    ((insertLWW m k v).map Prod.fst).Nodup := by
  induction m with
  | nil => simp [insertLWW]
  | cons p rest ih =>
      obtain ⟨k1, v1⟩ := p
      simp only [List.map_cons, List.nodup_cons] at h
      by_cases h1 : k1 = k
      · subst h1
        simpa [insertLWW] using h
      · rw [show insertLWW ((k1, v1) :: rest) k v
              = (k1, v1) :: insertLWW rest k v from by simp [insertLWW, h1]]
        simp only [List.map_cons, List.nodup_cons]
        refine ⟨?_, ih h.2⟩
        intro hmem
        rcases mem_keys_insertLWW rest k k1 v hmem with h2 | h2
        · exact h1 h2
        · exact h.1 h2

theorem alookup_buildMap {α : Type} (ws : List (String × α))
    (m : List (String × α)) (i : String) :
    alookup (buildMap ws m) i =
      match lastWrite ws i with
      | some v => some v
      | none => alookup m i := by
  induction ws generalizing m with
  | nil => simp [buildMap, lastWrite, alookup]
  | cons p rest ih =>
      obtain ⟨k, v⟩ := p
      have hstep : buildMap ((k, v) :: rest) m = buildMap rest (insertLWW m k v) := rfl
      rw [hstep, ih]
      simp only [lastWrite, List.reverse_cons, alookup_append, alookup_insertLWW]
      cases alookup rest.reverse i with
      | some w => rfl
      | none => by_cases h : k = i <;> simp [alookup, h]

theorem nodup_keys_buildMap {α : Type} (ws : List (String × α))
    (m : List (String × α)) (h : (m.map Prod.fst).Nodup) :
    ((buildMap ws m).map Prod.fst).Nodup := by
  induction ws generalizing m with
  | nil => exact h
  | cons p rest ih =>
      exact ih (insertLWW m p.1 p.2) (nodup_keys_insertLWW m p.1 p.2 h)

theorem alookup_reverse_of_nodup {α : Type} (l : List (String × α))
    (i : String) (h : (l.map Prod.fst).Nodup) :
    alookup l.reverse i = alookup l i := by
  induction l with
  | nil => rfl
  | cons p rest ih =>
      obtain ⟨k, v⟩ := p
      simp only [List.map_cons, List.nodup_cons] at h
      rw [List.reverse_cons, alookup_append, ih h.2]
      by_cases hk : k = i
      · subst hk
        rw [alookup_eq_none_of_not_mem rest k h.1]
        simp [alookup]
      · cases hrest : alookup rest i with
        | some w => simp [alookup, hk, hrest]
        | none => simp [alookup, hk, hrest]

theorem alookup_removeKey {α : Type} (l : List (String × α)) (k i : String) :
    alookup (removeKey l k) i = if i = k then none else alookup l i := by
  induction l with
  | nil => simp [removeKey, alookup]
  | cons p rest ih =>
      obtain ⟨k1, v1⟩ := p
      by_cases h1 : k1 = k
      · subst h1
        rw [show removeKey ((k1, v1) :: rest) k1 = removeKey rest k1 from by
              simp [removeKey]]
        rw [ih]
        by_cases h2 : i = k1
        · simp [h2]
        · have h3 : ¬ k1 = i := fun h => h2 h.symm
          simp [h2, alookup, h3]
      · rw [show removeKey ((k1, v1) :: rest) k = (k1, v1) :: removeKey rest k
              from by simp [removeKey, h1]]
        by_cases h2 : k1 = i
        · subst h2
          simp [alookup, h1]
        · simp [alookup, h2, ih]

theorem alookup_map_val {α β : Type} (l : List (String × α))
    (f : String → α → β) (i : String) :
    alookup (l.map (fun (p : String × α) => (p.1, f p.1 p.2))) i
      = (alookup l i).map (f i) := by
  induction l with
  | nil => rfl
  | cons p rest ih =>
      obtain ⟨k, v⟩ := p
      by_cases h : k = i
      · subst h
        simp [alookup]
      · simp [alookup, h, ih]

/-!  Simulation of the fan-out registry by the per-session machine. -/

theorem Fanout.alookup_stepEvent (g : List (String × Fanout.Sess))
    (e : Fanout.Event) (sid : String) :
    alookup (Fanout.stepEvent g e) sid
      = Fanout.stepSession sid (alookup g sid) e := by
  cases e with
  | registerSession sid2 =>
      by_cases h : sid2 = sid
      · subst h
        cases hx : alookup g sid2 with
        | some s => simp [stepEvent, stepSession, hx]
        | none =>
            simp [stepEvent, stepSession, hx, alookup_append, alookup]
      · cases hx : alookup g sid2 with
        | some s => simp [stepEvent, stepSession, hx, h]
        | none =>
            rw [show stepEvent g (Event.registerSession sid2)
                  = g ++ [(sid2, freshSess)] from by simp [stepEvent, hx]]
            rw [alookup_append]
            have h2 : alookup [(sid2, freshSess)] sid = none := by
              simp [alookup, h]
            rw [h2]
            cases hy : alookup g sid with
            | some s => simp [stepSession, h, hy]
            | none => simp [stepSession, h, hy]
  | unregisterSession sid2 =>
      by_cases h : sid2 = sid
      · subst h
        simp [stepEvent, stepSession, alookup_removeKey]
      · have h2 : ¬ sid = sid2 := fun hh => h hh.symm
        simp [stepEvent, stepSession, alookup_removeKey, h, h2]
  | registerWatch sid2 ent =>
      simpa [stepEvent, stepSession]
        using alookup_map_val g (addWatch sid2 ent) sid
  | dispatch n =>
      simpa [stepEvent, stepSession]
        using alookup_map_val g (fun _ s => deliverTo n s) sid

theorem Fanout.alookup_runEvents (evs : List Fanout.Event)
    (g : List (String × Fanout.Sess)) (sid : String) :
    alookup (Fanout.runEvents evs g) sid
      = Fanout.viewFrom evs (alookup g sid) sid := by
  induction evs generalizing g with
  | nil => rfl
  | cons e rest ih =>
      rw [show Fanout.runEvents (e :: rest) g
            = Fanout.runEvents rest (Fanout.stepEvent g e) from rfl]
      rw [show Fanout.viewFrom (e :: rest) (alookup g sid) sid
            = Fanout.viewFrom rest
                (Fanout.stepSession sid (alookup g sid) e) sid from rfl]
      rw [ih, alookup_stepEvent]

theorem Fanout.delivered_sublist (evs : List Fanout.Event) (sid : String)
    (st : Option Fanout.Sess) :
    (Fanout.deliveredOf (Fanout.viewFrom evs st sid)).Sublist
      (Fanout.deliveredOf st ++ Fanout.dispatched evs) := by
  induction evs generalizing st with
  | nil => simp [viewFrom, dispatched, deliveredOf]
  | cons e rest ih =>
      have step := ih (stepSession sid st e)
      have hview : viewFrom (e :: rest) st sid
          = viewFrom rest (stepSession sid st e) sid := rfl
      rw [hview]
      refine step.trans ?_
      cases e with
      | registerSession sid2 =>
          have hd : dispatched (Event.registerSession sid2 :: rest)
              = dispatched rest := rfl
          rw [hd]
          refine List.Sublist.append ?_ (List.Sublist.refl _)
          cases st with
          | none =>
              by_cases h : sid2 = sid <;>
                simp [stepSession, h, deliveredOf, freshSess]
          | some s =>
              by_cases h : sid2 = sid <;>
                simp [stepSession, h, deliveredOf]
      | unregisterSession sid2 =>
          have hd : dispatched (Event.unregisterSession sid2 :: rest)
              = dispatched rest := rfl
          rw [hd]
          refine List.Sublist.append ?_ (List.Sublist.refl _)
          cases st with
          | none =>
              by_cases h : sid2 = sid <;>
                simp [stepSession, h, deliveredOf]
          | some s =>
              by_cases h : sid2 = sid <;>
                simp [stepSession, h, deliveredOf]
      | registerWatch sid2 ent =>
          have hd : dispatched (Event.registerWatch sid2 ent :: rest)
              = dispatched rest := rfl
          rw [hd]
          refine List.Sublist.append ?_ (List.Sublist.refl _)
          cases st with
          | none => simp [stepSession, deliveredOf]
          | some s =>
              by_cases h : sid = sid2 <;>
                simp [stepSession, deliveredOf, addWatch, h]
      | dispatch n =>
          have hd : dispatched (Event.dispatch n :: rest)
              = n :: dispatched rest := rfl
          rw [hd]
          cases st with
          | none =>
              simp only [stepSession, Option.map_none, deliveredOf,
                List.nil_append]
              exact (List.sublist_cons_self n (dispatched rest)).append_left []
          | some s =>
              by_cases h : n.entity ∈ s.watches
              · have hmap : stepSession sid (some s) (Event.dispatch n)
                    = some { s with delivered := s.delivered ++ [n] } := by
                  simp [stepSession, deliverTo, h]
                rw [hmap]
                show ((s.delivered ++ [n]) ++ dispatched rest).Sublist
                  (s.delivered ++ n :: dispatched rest)
                rw [List.append_assoc]
                exact List.Sublist.refl _
              · have hmap : stepSession sid (some s) (Event.dispatch n)
                    = some s := by
                  simp [stepSession, deliverTo, h]
                rw [hmap]
                exact ((List.sublist_cons_self n
                  (dispatched rest)).append_left s.delivered)

/-!  Monotonicity of the terminated flag on a LongPoll channel. -/

theorem LongPoll.terminated_applyOp (op : LongPoll.Op) (u : LongPoll.State)
    (h : u.terminated = true) : (LongPoll.applyOp op u).terminated = true := by
  cases op with
  | opIsValid lockFree => cases lockFree <;> simp [applyOp, isValid, h]
  | opResetCounter => simpa [applyOp, resetCounter] using h
  | opCallback n => simpa [applyOp, callback] using h
  | opRespond => simp [applyOp, respond, h]
  | opShutdown => rfl

theorem LongPoll.terminated_runOps (ops : List LongPoll.Op)
    (u : LongPoll.State) (h : u.terminated = true) :
    (LongPoll.runOps ops u).terminated = true := by
  induction ops generalizing u with
  | nil => exact h
  | cons op rest ih => exact ih _ (terminated_applyOp op u h)

/-!  Pre-activation registration buffering. -/

theorem BDV_Server_Object.applyRegs_inactive
    (regs : List (String × BDV_Server_Object.WalletRegStruct))
    (s : BDV_Server_Object.SessionState) (h : s.activated = false) :
    BDV_Server_Object.applyRegs regs s
      = { s with wltRegMap := buildMap regs s.wltRegMap } := by
  induction regs generalizing s with
  | nil => simp [applyRegs, buildMap]
  | cons p rest ih =>
      have hstep : applyRegs (p :: rest) s
          = applyRegs rest (registerWatch p.1 p.2 s) := rfl
      have hreg : registerWatch p.1 p.2 s
          = { s with wltRegMap := insertLWW s.wltRegMap p.1 p.2 } := by
        simp [registerWatch, h]
      rw [hstep, hreg,
        ih { s with wltRegMap := insertLWW s.wltRegMap p.1 p.2 } h]
      rfl



/-!  The shutdown/respond interleaving invariant. -/

/-- Invariant of every reachable interleaving state: once the shutdown
thread has passed its terminate call the stack stays terminated, and
shutdown can only have returned after terminating. -/
theorem Sys.reachable_inv (s : Sys.State) (hr : Sys.Reachable s) :
    (s.sdTerminated = true → s.lp.terminated = true)
    ∧ (s.sdDone = true → s.sdTerminated = true) := by
  induction hr with
  | refl => simp [init]
  | tail _hab hbc ih =>
      obtain ⟨l, hstep⟩ := hbc
      cases hstep with
      | respAcquire s h => exact ih
      | respDeliver s h1 h2 h3 => exact ih
      | respFailFast s h1 h2 => exact ih
      | respTimeout s h => exact ih
      | cbPush s n h => exact ih
      | sdTerminate s h => exact ⟨fun _ => rfl, fun _ => rfl⟩
      | sdAcquireReturn s h1 h2 h3 => exact ⟨ih.1, fun _ => h1⟩

/-!  The claims. -/

/-- C1 (counterexample): the claim "once the counter has reached the
threshold 5, `isValid` returns false permanently — no later call,
including a completed respond that resets the counter, ever makes
`isValid` return true again" is false on the code.  Concretely, after
the fifth unobstructed `isValid` the counter is 5 and that call
returned false, yet a `resetCounter` (the reset performed on every
completed poll response) makes the very next `isValid` return true
again: the code has no permanence latch. -/
theorem C1_counterexample_reset_revives :
    LongPoll.expiredState.count = CALLBACK_EXPIRE_COUNT
    ∧ (LongPoll.isValid true LongPoll.nearExpiredState).1 = false
    ∧ (LongPoll.isValid true
        (LongPoll.resetCounter LongPoll.expiredState)).1 = true := by
  decide

/-- C1 (amended): the expiry counter starts at 0; each `isValid` call
that acquires the try-lock (no respond in progress) increments the
counter by exactly 1 modulo 2^32; an `isValid` call that does not
acquire it leaves the state untouched; whenever the incremented counter
has reached the threshold 5 that call returns false; each counter reset
(performed on every completed poll response) stores 0 — after which the
next unobstructed `isValid` returns true again, so the expiry is not
permanent. -/
theorem C1_amended_expiry_counter (s : LongPoll.State)
    (h : CALLBACK_EXPIRE_COUNT ≤ (s.count + 1) % UNSIGNED_MOD) :
    LongPoll.init.count = 0
    ∧ (LongPoll.isValid true s).2.count = (s.count + 1) % UNSIGNED_MOD
    ∧ LongPoll.isValid false s = (true, s)
    ∧ (LongPoll.isValid true s).1 = false
    ∧ (LongPoll.resetCounter s).count = 0
    ∧ (LongPoll.isValid true (LongPoll.resetCounter s)).1 = true := by
  refine ⟨rfl, rfl, rfl, ?_, rfl, ?_⟩
  · show decide ((s.count + 1) % UNSIGNED_MOD < CALLBACK_EXPIRE_COUNT) = false
    exact decide_eq_false (Nat.not_lt.mpr h)
  · show decide ((0 + 1) % UNSIGNED_MOD < CALLBACK_EXPIRE_COUNT) = true
    decide

/-- Witness for C1 (amended) at the concrete channel state with
counter 4. -/
theorem C1_amended_expiry_counter_witness :
    LongPoll.init.count = 0
    ∧ (LongPoll.isValid true
        { count := 4, queue := [], terminated := false }).2.count
      = (4 + 1) % UNSIGNED_MOD
    ∧ LongPoll.isValid false { count := 4, queue := [], terminated := false }
      = (true, { count := 4, queue := [], terminated := false })
    ∧ (LongPoll.isValid true
        { count := 4, queue := [], terminated := false }).1 = false
    ∧ (LongPoll.resetCounter
        { count := 4, queue := [], terminated := false }).count = 0
    ∧ (LongPoll.isValid true (LongPoll.resetCounter
        { count := 4, queue := [], terminated := false })).1 = true :=
  C1_amended_expiry_counter { count := 4, queue := [], terminated := false }
    (by decide)

/-- C2: in every reachable interleaving, the step on which
`LongPoll::shutdown` returns is the mutex-grab step, which can only
fire after the terminate step (terminate-then-wait order of lines
83-84) and only while no respond holds the mutex — so when shutdown
returns, no respond is in flight and the stack is already terminated;
moreover once shutdown has returned, no delivering respond step (the
only step reading session state) can ever fire again. -/
theorem C2_shutdown_terminate_then_wait (l : Sys.Label) (s t : Sys.State)
    (hr : Sys.Reachable s) (hstep : Sys.Step l s t) :
    (s.sdDone = false → t.sdDone = true →
      l = Sys.Label.sdAcquireReturn ∧ s.sdTerminated = true
        ∧ s.mutexHeld = false ∧ s.lp.terminated = true)
    ∧ (s.sdDone = true → l ≠ Sys.Label.respDeliver) := by
  refine ⟨?_, ?_⟩
  · intro h0 h1
    cases hstep with
    | respAcquire s h => simp [h0] at h1
    | respDeliver s h1a h2a h3a => simp [h0] at h1
    | respFailFast s h1a h2a => simp [h0] at h1
    | respTimeout s h => simp [h0] at h1
    | cbPush s n h => simp [h0] at h1
    | sdTerminate s h => simp [h0] at h1
    | sdAcquireReturn s g1 g2 g3 =>
        exact ⟨rfl, g1, g2, (Sys.reachable_inv s hr).1 g1⟩
  · intro hdone heq
    subst heq
    cases hstep with
    | respDeliver s g1 g2 g3 =>
        have h1 := (Sys.reachable_inv s hr).2 hdone
        have h2 := (Sys.reachable_inv s hr).1 h1
        exact absurd h2 (by simp [g2])

/-- Witness for C2 on the concrete trace init → terminate → return. -/
theorem C2_shutdown_terminate_then_wait_witness :
    Sys.Label.sdAcquireReturn = Sys.Label.sdAcquireReturn
    ∧ Sys.afterTerminate.sdTerminated = true
    ∧ Sys.afterTerminate.mutexHeld = false
    ∧ Sys.afterTerminate.lp.terminated = true :=
  (C2_shutdown_terminate_then_wait Sys.Label.sdAcquireReturn
      Sys.afterTerminate Sys.afterReturn
      (Relation.ReflTransGen.single
        ⟨Sys.Label.sdTerminate, Sys.Step.sdTerminate Sys.init rfl⟩)
      (Sys.Step.sdAcquireReturn Sys.afterTerminate rfl rfl rfl)).1 rfl rfl

/-- C3: an `isValid` call made while a respond is in progress (the
try-lock on `mu_` fails, `lockFree = false`) returns true and leaves
the channel state — in particular the expiry counter — untouched. -/
theorem C3_isValid_during_respond (s : LongPoll.State) :
    LongPoll.isValid false s = (true, s) := rfl

/-- C4: a respond waking with a non-empty queue on a non-terminated
channel drains every queued notification into one ordered batch,
resets the expiry counter to 0 and returns the batch; a respond on a
terminated channel returns the terminal result and changes nothing,
and after any further sequence of operations on that channel a respond
still reports terminated. -/
theorem C4_respond_drain_and_terminal (s t : LongPoll.State)
    (ops : List LongPoll.Op) (hs : s.terminated = false)
    (hq : s.queue ≠ []) (ht : t.terminated = true) :
    LongPoll.respond s
      = (LongPoll.RespondResult.batch s.queue,
         { s with queue := [], count := 0 })
    ∧ LongPoll.respond t = (LongPoll.RespondResult.terminal, t)
    ∧ (LongPoll.respond (LongPoll.runOps ops t)).1
        = LongPoll.RespondResult.terminal := by
  refine ⟨?_, ?_, ?_⟩
  · simp [LongPoll.respond, hs, hq]
  · simp [LongPoll.respond, ht]
  · have hterm := LongPoll.terminated_runOps ops t ht
    simp [LongPoll.respond, hterm]

/-- Witness for C4 at concrete channel states. -/
theorem C4_respond_witness :
    LongPoll.respond { count := 3, queue := [10, 20], terminated := false }
      = (LongPoll.RespondResult.batch [10, 20],
         { count := 0, queue := [], terminated := false })
    ∧ LongPoll.respond { count := 0, queue := [], terminated := true }
      = (LongPoll.RespondResult.terminal,
         { count := 0, queue := [], terminated := true })
    ∧ (LongPoll.respond
        (LongPoll.runOps [LongPoll.Op.opCallback 7, LongPoll.Op.opResetCounter]
          { count := 0, queue := [], terminated := true })).1
        = LongPoll.RespondResult.terminal :=
  C4_respond_drain_and_terminal _ _ _ rfl (by decide) rfl

/-- C5: the registry run is simulated exactly by the per-session
projection (so a session receives a notification exactly when the
notification was dispatched while the session was registered and
watching its entity — exactly once per qualifying dispatch); the
delivered sequence of any registered session is a sublist of the
dispatched sequence, hence in dispatch acceptance order; and a
notification dispatched before the session exists leaves that
session's view unchanged forever (no retroactive delivery). -/
theorem C5_dispatch_delivery (evs : List Fanout.Event) (sid : String)
    (n : Fanout.Notif) (s1 : Fanout.Sess)
    (hview : Fanout.sessionView evs sid = some s1) :
    alookup (Fanout.runEvents evs []) sid = Fanout.sessionView evs sid
    ∧ s1.delivered.Sublist (Fanout.dispatched evs)
    ∧ Fanout.sessionView (Fanout.Event.dispatch n :: evs) sid
        = Fanout.sessionView evs sid := by
  refine ⟨?_, ?_, ?_⟩
  · exact Fanout.alookup_runEvents evs [] sid
  · have h := Fanout.delivered_sublist evs sid none
    rw [show Fanout.viewFrom evs none sid = Fanout.sessionView evs sid
          from rfl, hview] at h
    simpa [Fanout.deliveredOf] using h
  · rfl

/-- Witness for C5 on a concrete journal: session A registers, watches
x, one matching notification is dispatched and delivered once. -/
theorem C5_dispatch_delivery_witness :
    alookup (Fanout.runEvents Fanout.sampleEvents []) "A"
      = Fanout.sessionView Fanout.sampleEvents "A"
    ∧ (Fanout.Sess.mk ["x"] [Fanout.Notif.mk "x" 1]).delivered.Sublist
        (Fanout.dispatched Fanout.sampleEvents)
    ∧ Fanout.sessionView
        (Fanout.Event.dispatch (Fanout.Notif.mk "y" 2) :: Fanout.sampleEvents)
        "A"
      = Fanout.sessionView Fanout.sampleEvents "A" :=
  C5_dispatch_delivery Fanout.sampleEvents "A" (Fanout.Notif.mk "y" 2)
    (Fanout.Sess.mk ["x"] [Fanout.Notif.mk "x" 1]) (by decide)

/-- C6: after `activate()` on a session whose registrations were all
buffered pre-activation, the resolved watch-set contains exactly the
registered entity ids (no registration lost, none duplicated — its key
list is duplicate-free), each id bound to the last registration
written for it (last-write-wins), the buffer is drained, and the
session is activated. -/
theorem C6_activate_buffered_registrations
    (regs : List (String × BDV_Server_Object.WalletRegStruct))
    (id : String) :
    ((BDV_Server_Object.activate (BDV_Server_Object.applyRegs regs
        BDV_Server_Object.freshSession)).wallets.map Prod.fst).Nodup
    ∧ alookup (BDV_Server_Object.activate (BDV_Server_Object.applyRegs regs
        BDV_Server_Object.freshSession)).wallets id = lastWrite regs id
    ∧ (BDV_Server_Object.activate (BDV_Server_Object.applyRegs regs
        BDV_Server_Object.freshSession)).activated = true
    ∧ (BDV_Server_Object.activate (BDV_Server_Object.applyRegs regs
        BDV_Server_Object.freshSession)).wltRegMap = [] := by
  rw [BDV_Server_Object.applyRegs_inactive regs BDV_Server_Object.freshSession
      rfl]
  refine ⟨?_, ?_, rfl, rfl⟩
  · exact nodup_keys_buildMap _ _ (by simp [BDV_Server_Object.freshSession])
  · show alookup (buildMap (buildMap regs []) []) id = lastWrite regs id
    rw [alookup_buildMap]
    have hnd : ((buildMap regs
        ([] : List (String × BDV_Server_Object.WalletRegStruct))).map
          Prod.fst).Nodup :=
      nodup_keys_buildMap _ _ (by simp)
    have hrev : lastWrite (buildMap regs []) id
        = alookup (buildMap regs []) id :=
      alookup_reverse_of_nodup _ id hnd
    rw [hrev, alookup_buildMap]
    cases lastWrite regs id <;> simp [alookup]

/-- C7: after `shutdownAll` the run flag is cleared, all queues are
terminated, all background threads are joined, no session remains
registered, every torn-down session's channel was shut down (and a
shut-down channel reports terminated), and the external shutdown hook
has been invoked exactly once. -/
theorem C7_shutdownAll_postconditions (c : Clients.State) (ch : Channel)
    (hc : c.hookCalls = 0) :
    (Clients.shutdownAll c).run = false
    ∧ (Clients.shutdownAll c).queuesTerminated = true
    ∧ (Clients.shutdownAll c).threadsJoined = true
    ∧ (Clients.shutdownAll c).sessions = []
    ∧ (Clients.shutdownAll c).unregistered
        = c.unregistered ++ c.sessions.map
            (fun (p : String × Channel) => (p.1, Channel.shutdown p.2))
    ∧ Channel.terminated (Channel.shutdown ch) = true
    ∧ (Clients.shutdownAll c).hookCalls = 1 := by
  refine ⟨rfl, rfl, rfl, rfl, rfl, ?_, ?_⟩
  · cases ch with
    | longPoll s => rfl
    | wsCallback s => rfl
  · show c.hookCalls + 1 = 1
    rw [hc]

/-- Witness for C7 at a concrete registry with one live session. -/
theorem C7_shutdownAll_witness :
    (Clients.shutdownAll Clients.sampleState).run = false
    ∧ (Clients.shutdownAll Clients.sampleState).queuesTerminated = true
    ∧ (Clients.shutdownAll Clients.sampleState).threadsJoined = true
    ∧ (Clients.shutdownAll Clients.sampleState).sessions = []
    ∧ (Clients.shutdownAll Clients.sampleState).unregistered
        = Clients.sampleState.unregistered
            ++ Clients.sampleState.sessions.map
              (fun (p : String × Channel) => (p.1, Channel.shutdown p.2))
    ∧ Channel.terminated (Channel.shutdown
        (Channel.longPoll LongPoll.init)) = true
    ∧ (Clients.shutdownAll Clients.sampleState).hookCalls = 1 :=
  C7_shutdownAll_postconditions Clients.sampleState
    (Channel.longPoll LongPoll.init) rfl

/-- C8: `registerBDV` called with a session id already present in the
registry fails with `DuplicateSession` and leaves the registry
unchanged, and registration preserves the at-most-one-session-per-id
invariant (duplicate-free key list) of the registry map. -/
theorem C8_registerBDV_duplicate (bdvs bdvs2 : List (String × Nat))
    (id id2 : String) (x x2 : Nat)
    (hdup : (alookup bdvs id).isSome = true)
    (hnd : (bdvs2.map Prod.fst).Nodup) :
    Clients.registerBDV bdvs id x
      = (Clients.RegisterResult.duplicateSession, bdvs)
    ∧ (((Clients.registerBDV bdvs2 id2 x2).2).map Prod.fst).Nodup := by
  refine ⟨?_, ?_⟩
  · simp [Clients.registerBDV, hdup]
  · by_cases h : (alookup bdvs2 id2).isSome = true
    · simpa [Clients.registerBDV, h] using hnd
    · have hmem : id2 ∉ bdvs2.map Prod.fst := fun hm =>
        h (alookup_isSome_of_mem_keys bdvs2 id2 hm)
      have hins : (Clients.registerBDV bdvs2 id2 x2).2
          = bdvs2 ++ [(id2, x2)] := by
        simp [Clients.registerBDV, h]
      rw [hins, List.map_append]
      refine List.Nodup.append hnd (by simp) ?_
      intro a ha hb
      simp at hb
      subst hb
      exact hmem ha

/-- Witness for C8 at a concrete one-entry registry. -/
theorem C8_registerBDV_witness :
    Clients.registerBDV [("a", 1)] "a" 2
      = (Clients.RegisterResult.duplicateSession, [("a", 1)])
    ∧ (((Clients.registerBDV [("a", 1)] "b" 3).2).map Prod.fst).Nodup :=
  C8_registerBDV_duplicate [("a", 1)] [("a", 1)] "a" "b" 2 3 (by decide)
    (by decide)

/-- C9: for both delivery-channel variants, `shutdown` is idempotent —
a second call leaves the state exactly where the first left it
(`LongPoll::shutdown` marks the already-terminated stack terminated,
`WS_Callback::shutdown` is a no-op). -/
theorem C9_channel_shutdown_idempotent (c : Channel) :
    Channel.shutdown (Channel.shutdown c) = Channel.shutdown c := by
  cases c <;> rfl

/-- C10: `BDV_Server_Object::resetCounter` is total over both channel
variants: on a `WS_Callback` push channel the `dynamic_cast` yields
null and the call is a no-op (no expiry state touched, no fault), and
on a `LongPoll` it performs exactly `LongPoll::resetCounter`;
`WS_Callback::isValid` is constantly true. -/
theorem C10_resetCounter_total_safe (w : WS_Callback.State)
    (s : LongPoll.State) :
    BDV_Server_Object.resetCounter (Channel.wsCallback w)
      = Channel.wsCallback w
    ∧ BDV_Server_Object.resetCounter (Channel.longPoll s)
      = Channel.longPoll (LongPoll.resetCounter s)
    ∧ WS_Callback.isValid w = true :=
  ⟨rfl, rfl, rfl⟩
